import Mathlib

/-!
Verification of the event collection/dedup/dispatch core of
`OrbitService/LinuxTracingHandler.cpp` (the Orbit profiler service).

The C++ handler receives typed trace events via callbacks, interns repeated
payloads (strings, callstacks, tracepoint descriptors) emitting each unique
payload once, gates repeated address resolutions, buffers events, and a
sender thread flushes the buffer to a downstream consumer; at shutdown it
drains a length-prefixed side-channel file.

We shallow-embed the handler as explicit state passing: machine `uint64_t`
arithmetic is `Nat` with `% 2^64`, hash sets are lists with membership, the
event buffer is a list, and the side-channel file is a list of byte values.
-/

namespace OrbitService

/-- Word size of the C++ `uint64_t` keys. -/
def U64 : Nat := 2 ^ 64

/-- An event in the capture stream: the `CaptureEvent` tagged union of
`LinuxTracingHandler.cpp`, restricted to the fields the handler touches.
Payload data the handler merely forwards is collapsed to an opaque `Nat`. -/
inductive CaptureEvent : Type where
  | schedulingSlice (slice : Nat)
  | callstackSample (sampleData : Nat) (callstack_key : Nat)
  | functionCall (fc : Nat)
  | introspectionScope (scope : Nat)
  | gpuJob (jobData : Nat) (timeline_key : Nat)
  | threadName (tn : Nat)
  | threadStateSlice (ts : Nat)
  | addressInfo (absolute_address : Nat) (function_name_key : Nat)
      (map_name_key : Nat) (other : Nat)
  | tracepointEvent (te : Nat) (tracepoint_info_key : Nat)
  | internedString (key : Nat) (intern : String)
  | internedCallstack (key : Nat) (intern : List Nat)
  | internedTracepointInfo (key : Nat) (name : String) (category : String)
  | gpuQueueSubmission (submission : List Nat)
  deriving DecidableEq, Repr

/-- The mutable state of one `LinuxTracingHandler` session: the tracer handle
(null or live), the three intern "keys sent" sets, the seen-address set, and
the event buffer.  C++ `absl::flat_hash_set`s are modelled as lists with
membership; the locks serialize accesses, so single-threaded state passing is
the faithful sequential semantics. -/
structure HandlerState : Type where
  tracer : Option Unit
  callstack_keys_sent : List Nat
  string_keys_sent : List Nat
  tracepoint_keys_sent : List Nat
  addresses_seen : List Nat
  event_buffer : List CaptureEvent
  deriving DecidableEq, Repr

/-- The state right after `Start`: live tracer, empty tables and buffer. -/
def initState : HandlerState :=
  { tracer := some ()
    callstack_keys_sent := []
    string_keys_sent := []
    tracepoint_keys_sent := []
    addresses_seen := []
    event_buffer := [] }

/-- Embeds `LinuxTracingHandler::ComputeCallstackKey`: polynomial hash over the
program counters, seed 17, multiplier 31, in `uint64_t` wrapping
arithmetic. -/
def ComputeCallstackKey (pcs : List Nat) : Nat :=
  pcs.foldl (fun key pc => (31 * key + pc) % U64) 17

/-- Embeds `LinuxTracingHandler::ComputeStringKey`, which calls
`std::hash<std::string>{}(str)`.  Modelled from the spec: `std::hash` is
library code outside the repository; the spec requires only a "standard
content hash of the string bytes", i.e. an unspecified deterministic function
of the string content.  We model it as FNV-1a-64 over the string's character
codes; every theorem below uses only that it is a function of the string. -/
def ComputeStringKey (str : String) : Nat :=
  str.data.foldl
    (fun h c => ((h ^^^ c.toNat) * 1099511628211) % U64) 14695981039346656037

/-- Embeds `LinuxTracingHandler::InternCallstackIfNecessaryAndGetKey`: compute the
key; under the callstack lock, if already sent return the key, else mark
sent; then enqueue the interned-callstack event and return the key. -/
def InternCallstackIfNecessaryAndGetKey (callstack : List Nat)
    (s : HandlerState) : Nat × HandlerState :=
  let key := ComputeCallstackKey callstack
  if s.callstack_keys_sent.contains key then
    (key, s)
  else
    (key,
      { s with
        callstack_keys_sent := key :: s.callstack_keys_sent
        event_buffer :=
          s.event_buffer ++ [CaptureEvent.internedCallstack key callstack] })

/-- Embeds `LinuxTracingHandler::InternStringIfNecessaryAndGetKey`: same pattern on
the string domain. -/
def InternStringIfNecessaryAndGetKey (str : String)
    (s : HandlerState) : Nat × HandlerState :=
  let key := ComputeStringKey str
  if s.string_keys_sent.contains key then
    (key, s)
  else
    (key,
      { s with
        string_keys_sent := key :: s.string_keys_sent
        event_buffer :=
          s.event_buffer ++ [CaptureEvent.internedString key str] })

/-- Embeds `LinuxTracingHandler::InternTracepointInfoIfNecessaryAndGetKey`: the key
is the string hash of `absl::StrCat(category, ":", name)`; same dedup
pattern on the tracepoint domain. -/
def InternTracepointInfoIfNecessaryAndGetKey (category name : String)
    (s : HandlerState) : Nat × HandlerState :=
  let key := ComputeStringKey (category ++ ":" ++ name)
  if s.tracepoint_keys_sent.contains key then
    (key, s)
  else
    (key,
      { s with
        tracepoint_keys_sent := key :: s.tracepoint_keys_sent
        event_buffer :=
          s.event_buffer ++
            [CaptureEvent.internedTracepointInfo key name category] })

/-- Embeds `LinuxTracingHandler::OnSchedulingSlice`: wrap and enqueue. -/
def OnSchedulingSlice (slice : Nat) (s : HandlerState) : HandlerState :=
  { s with event_buffer := s.event_buffer ++ [CaptureEvent.schedulingSlice slice] }

/-- Embeds `LinuxTracingHandler::OnCallstackSample`: intern the callstack, set the
key on the sample, wrap and enqueue. -/
def OnCallstackSample (sampleData : Nat) (callstack : List Nat)
    (s : HandlerState) : HandlerState :=
  let r := InternCallstackIfNecessaryAndGetKey callstack s
  { r.2 with
    event_buffer :=
      r.2.event_buffer ++ [CaptureEvent.callstackSample sampleData r.1] }

/-- Embeds `LinuxTracingHandler::OnFunctionCall`: wrap and enqueue. -/
def OnFunctionCall (fc : Nat) (s : HandlerState) : HandlerState :=
  { s with event_buffer := s.event_buffer ++ [CaptureEvent.functionCall fc] }

/-- Embeds `LinuxTracingHandler::OnIntrospectionScope`: wrap and enqueue. -/
def OnIntrospectionScope (scope : Nat) (s : HandlerState) : HandlerState :=
  { s with
    event_buffer := s.event_buffer ++ [CaptureEvent.introspectionScope scope] }

/-- Embeds `LinuxTracingHandler::OnGpuJob`: intern the timeline string, set the key,
wrap and enqueue. -/
def OnGpuJob (jobData : Nat) (timeline : String)
    (s : HandlerState) : HandlerState :=
  let r := InternStringIfNecessaryAndGetKey timeline s
  { r.2 with
    event_buffer := r.2.event_buffer ++ [CaptureEvent.gpuJob jobData r.1] }

/-- Embeds `LinuxTracingHandler::OnThreadName`: wrap and enqueue. -/
def OnThreadName (tn : Nat) (s : HandlerState) : HandlerState :=
  { s with event_buffer := s.event_buffer ++ [CaptureEvent.threadName tn] }

/-- Embeds `LinuxTracingHandler::OnThreadStateSlice`: wrap and enqueue. -/
def OnThreadStateSlice (ts : Nat) (s : HandlerState) : HandlerState :=
  { s with
    event_buffer := s.event_buffer ++ [CaptureEvent.threadStateSlice ts] }

/-- Embeds `LinuxTracingHandler::OnAddressInfo`: under the address lock, return if
the absolute address was already seen, else record it; then intern the
demangled function name and the map name, set both keys, wrap and enqueue.
`llvm::demangle` is an external collaborator and is taken as an opaque pure
function argument. -/
def OnAddressInfo (demangle : String → String) (absolute_address : Nat)
    (function_name map_name : String) (other : Nat)
    (s : HandlerState) : HandlerState :=
  if s.addresses_seen.contains absolute_address then
    s
  else
    let s1 := { s with addresses_seen := absolute_address :: s.addresses_seen }
    let rf := InternStringIfNecessaryAndGetKey (demangle function_name) s1
    let rm := InternStringIfNecessaryAndGetKey map_name rf.2
    { rm.2 with
      event_buffer :=
        rm.2.event_buffer ++
          [CaptureEvent.addressInfo absolute_address rf.1 rm.1 other] }

/-- Embeds `LinuxTracingHandler::OnTracepointEvent`: intern the tracepoint info, set
the key, wrap and enqueue. -/
def OnTracepointEvent (te : Nat) (category name : String)
    (s : HandlerState) : HandlerState :=
  let r := InternTracepointInfoIfNecessaryAndGetKey category name s
  { r.2 with
    event_buffer :=
      r.2.event_buffer ++ [CaptureEvent.tracepointEvent te r.1] }

/-- One producer-side callback invocation, with its payload.  These are the
`On*` sink methods of the handler (the tracer's event-sink interface). -/
inductive HandlerCall : Type where
  | schedulingSlice (slice : Nat)
  | callstackSample (sampleData : Nat) (pcs : List Nat)
  | functionCall (fc : Nat)
  | introspectionScope (scope : Nat)
  | gpuJob (jobData : Nat) (timeline : String)
  | threadName (tn : Nat)
  | threadStateSlice (ts : Nat)
  | addressInfo (absolute_address : Nat) (function_name map_name : String)
      (other : Nat)
  | tracepointEvent (te : Nat) (category name : String)
  deriving DecidableEq, Repr

/-- Dispatch one callback to the corresponding handler method. -/
def stepHandler (demangle : String → String) :
    HandlerCall → HandlerState → HandlerState
  | .schedulingSlice slice, s => OnSchedulingSlice slice s
  | .callstackSample d pcs, s => OnCallstackSample d pcs s
  | .functionCall fc, s => OnFunctionCall fc s
  | .introspectionScope sc, s => OnIntrospectionScope sc s
  | .gpuJob d timeline, s => OnGpuJob d timeline s
  | .threadName tn, s => OnThreadName tn s
  | .threadStateSlice ts, s => OnThreadStateSlice ts s
  | .addressInfo a fn mn o, s => OnAddressInfo demangle a fn mn o s
  | .tracepointEvent te c n, s => OnTracepointEvent te c n s

/-- Run a sequence of callbacks with no intervening flush: the event buffer
accumulates every event appended, in append order. -/
def runHandlers (demangle : String → String) :
    List HandlerCall → HandlerState → HandlerState
  | [], s => s
  | c :: cs, s => runHandlers demangle cs (stepHandler demangle c s)

/-- One step of a session interleaving: either a producer callback appends to
the buffer, or the sender thread wakes and flushes. -/
inductive Step : Type where
  | call (c : HandlerCall)
  | flush
  deriving DecidableEq, Repr

/-- A session's observable state: the handler state plus the concatenation of
all batches delivered to `capture_response_listener_->ProcessEvents`, in
delivery order. -/
structure SessionState : Type where
  hs : HandlerState
  delivered : List CaptureEvent
  deriving DecidableEq, Repr

/-- One sender-thread wake-up (`SenderThread` body after the wait): the whole
event buffer is moved out as one batch, the buffer is cleared, and the batch
is handed to the downstream consumer. -/
def flushOnce (ss : SessionState) : SessionState :=
  { hs := { ss.hs with event_buffer := [] }
    delivered := ss.delivered ++ ss.hs.event_buffer }

/-- Run an interleaving of producer callbacks and sender flushes. -/
def runSession (demangle : String → String) :
    List Step → SessionState → SessionState
  | [], ss => ss
  | Step.call c :: rest, ss =>
      runSession demangle rest { ss with hs := stepHandler demangle c ss.hs }
  | Step.flush :: rest, ss => runSession demangle rest (flushOnce ss)

/-- The producer callbacks of an interleaving, in order. -/
def callsOf : List Step → List HandlerCall
  | [] => []
  | Step.call c :: rest => c :: callsOf rest
  | Step.flush :: rest => callsOf rest

/-- Constant `kSendTimeInterval` in `SenderThread`, in milliseconds. -/
def kSendTimeIntervalMs : Nat := 20

/-- Constant `kSendEventCountInterval` in `SenderThread`. -/
def kSendEventCountInterval : Nat := 5000

/-- The wake condition the sender thread passes to `LockWhenWithTimeout`:
the buffer holds at least `kSendEventCountInterval` events, or the tracer
handle is null (session stopped). -/
def senderWakeCondition (s : HandlerState) : Bool :=
  decide (s.event_buffer.length ≥ kSendEventCountInterval) ||
    s.tracer.isNone

/-- Embeds `ReadLittleEndian32` on a byte stream: four bytes, least significant
first; fails if fewer than four bytes remain. -/
def readLittleEndian32 : List Nat → Option (Nat × List Nat)
  | b0 :: b1 :: b2 :: b3 :: rest =>
      some (b0 + 2 ^ 8 * b1 + 2 ^ 16 * b2 + 2 ^ 24 * b3, rest)
  | _ => none

/-- Embeds `ReadMessage` of `LinuxTracingHandler.cpp`: read a 4-byte little-endian
length, then exactly that many raw bytes; fail (return `none`) if either
read comes up short.  The payload is kept as raw bytes: `ParseFromArray` is
called on them but its boolean result is discarded, so the decode outcome
never influences `ReadMessage`'s result. -/
def ReadMessage (input : List Nat) : Option (List Nat × List Nat) :=
  match readLittleEndian32 input with
  | none => none
  | some (message_size, rest) =>
      if message_size ≤ rest.length then
        some (rest.take message_size, rest.drop message_size)
      else
        none

theorem readLittleEndian32_some_length {input : List Nat} {n : Nat}
    {rest : List Nat} (h : readLittleEndian32 input = some (n, rest)) :
    rest.length + 4 = input.length := by
  match input with
  | b0 :: b1 :: b2 :: b3 :: r =>
      simp only [readLittleEndian32, Option.some.injEq, Prod.mk.injEq] at h
      simp [← h.2, List.length_cons]
  | [] | [_] | [_, _] | [_, _, _] => simp [readLittleEndian32] at h

theorem ReadMessage_some_length {input payload rest : List Nat}
    (h : ReadMessage input = some (payload, rest)) :
    rest.length < input.length := by
  unfold ReadMessage at h
  rcases hr : readLittleEndian32 input with _ | ⟨n, r⟩ <;> rw [hr] at h
  · exact absurd h (by simp)
  · have hl := readLittleEndian32_some_length hr
    by_cases hn : n ≤ r.length
    · simp only [hn, if_true, Option.some.injEq, Prod.mk.injEq] at h
      have : rest.length ≤ r.length := by
        rw [← h.2]; simp
      omega
    · simp [hn] at h

/-- The drain loop in `SenderThread`'s final iteration: repeatedly
`ReadMessage` and wrap each payload as a GPU-queue-submission event, in file
order, stopping at the first failed read. -/
def drainLoop (input : List Nat) : List CaptureEvent :=
  match h : ReadMessage input with
  | none => []
  | some (payload, rest) =>
      CaptureEvent.gpuQueueSubmission payload :: drainLoop rest
termination_by input.length
decreasing_by exact ReadMessage_some_length h

/-- The whole drain step: the side-channel file is either absent (`none`) or
holds a byte string.  If absent (`file.good()` fails), nothing is appended
and nothing is removed; if present, the drain loop runs and the file is
removed (`std::remove`).  Returns the appended events and the file state
afterward. -/
def drainSideChannel : Option (List Nat) → List CaptureEvent × Option (List Nat)
  | none => ([], none)
  | some bytes => (drainLoop bytes, none)

/-- Little-endian encoding of a 4-byte length, for describing well-formed
side-channel files. -/
def toLittleEndian32 (n : Nat) : List Nat :=
  [n % 2 ^ 8, n / 2 ^ 8 % 2 ^ 8, n / 2 ^ 16 % 2 ^ 8, n / 2 ^ 24 % 2 ^ 8]

/-- A well-formed side-channel record: 4-byte little-endian length prefix
followed by exactly that many payload bytes. -/
def encodeRecord (payload : List Nat) : List Nat :=
  toLittleEndian32 payload.length ++ payload

/-- A well-formed side-channel file: the concatenation of its records. -/
def encodeFile (payloads : List (List Nat)) : List Nat :=
  (payloads.map encodeRecord).flatten

/-- Does this event carry the interned-callstack record for key `k`? -/
def isInternedCallstackKey (k : Nat) : CaptureEvent → Bool
  | .internedCallstack key _ => key == k
  | _ => false

/-- Does this event carry the interned-string record for key `k`? -/
def isInternedStringKey (k : Nat) : CaptureEvent → Bool
  | .internedString key _ => key == k
  | _ => false

/-- Does this event carry the interned-tracepoint record for key `k`? -/
def isInternedTracepointKey (k : Nat) : CaptureEvent → Bool
  | .internedTracepointInfo key _ _ => key == k
  | _ => false

/-- Number of interned-callstack events with key `k` in an event list. -/
def countInternedCallstackKey (k : Nat) (evs : List CaptureEvent) : Nat :=
  evs.countP (isInternedCallstackKey k)

/-- Number of interned-string events with key `k` in an event list. -/
def countInternedStringKey (k : Nat) (evs : List CaptureEvent) : Nat :=
  evs.countP (isInternedStringKey k)

/-- Number of interned-tracepoint events with key `k` in an event list. -/
def countInternedTracepointKey (k : Nat) (evs : List CaptureEvent) : Nat :=
  evs.countP (isInternedTracepointKey k)

/-- Dedup invariant tying each "keys sent" set to the buffer content: a key
is marked sent iff its interned-payload event sits in the buffer exactly
once, for each of the three intern domains. -/
def dedupInv (s : HandlerState) : Prop :=
  (∀ k, countInternedCallstackKey k s.event_buffer =
      if k ∈ s.callstack_keys_sent then 1 else 0) ∧
  (∀ k, countInternedStringKey k s.event_buffer =
      if k ∈ s.string_keys_sent then 1 else 0) ∧
  (∀ k, countInternedTracepointKey k s.event_buffer =
      if k ∈ s.tracepoint_keys_sent then 1 else 0)

/-! Frame lemmas: every operation only appends to the event buffer, and
its effect on the rest of the state does not depend on the buffer content. -/

theorem InternCallstack_frame (cs : List Nat) (s : HandlerState)
    (b : List CaptureEvent) :
    InternCallstackIfNecessaryAndGetKey cs { s with event_buffer := b } =
      ((InternCallstackIfNecessaryAndGetKey cs
          { s with event_buffer := [] }).1,
        { (InternCallstackIfNecessaryAndGetKey cs
              { s with event_buffer := [] }).2 with
          event_buffer :=
            b ++ (InternCallstackIfNecessaryAndGetKey cs
                { s with event_buffer := [] }).2.event_buffer }) := by
  unfold InternCallstackIfNecessaryAndGetKey
  by_cases h : ComputeCallstackKey cs ∈ s.callstack_keys_sent <;> simp [h]

theorem InternString_frame (str : String) (s : HandlerState)
    (b : List CaptureEvent) :
    InternStringIfNecessaryAndGetKey str { s with event_buffer := b } =
      ((InternStringIfNecessaryAndGetKey str { s with event_buffer := [] }).1,
        { (InternStringIfNecessaryAndGetKey str
              { s with event_buffer := [] }).2 with
          event_buffer :=
            b ++ (InternStringIfNecessaryAndGetKey str
                { s with event_buffer := [] }).2.event_buffer }) := by
  unfold InternStringIfNecessaryAndGetKey
  by_cases h : ComputeStringKey str ∈ s.string_keys_sent <;> simp [h]

theorem InternTracepoint_frame (category name : String) (s : HandlerState)
    (b : List CaptureEvent) :
    InternTracepointInfoIfNecessaryAndGetKey category name
        { s with event_buffer := b } =
      ((InternTracepointInfoIfNecessaryAndGetKey category name
          { s with event_buffer := [] }).1,
        { (InternTracepointInfoIfNecessaryAndGetKey category name
              { s with event_buffer := [] }).2 with
          event_buffer :=
            b ++ (InternTracepointInfoIfNecessaryAndGetKey category name
                { s with event_buffer := [] }).2.event_buffer }) := by
  unfold InternTracepointInfoIfNecessaryAndGetKey
  by_cases h : ComputeStringKey (category ++ ":" ++ name) ∈
      s.tracepoint_keys_sent <;> simp [h]

theorem OnAddressInfo_frame (demangle : String → String) (a : Nat)
    (fn mn : String) (o : Nat) (s : HandlerState) (b : List CaptureEvent) :
    OnAddressInfo demangle a fn mn o { s with event_buffer := b } =
      { OnAddressInfo demangle a fn mn o { s with event_buffer := [] } with
        event_buffer :=
          b ++ (OnAddressInfo demangle a fn mn o
              { s with event_buffer := [] }).event_buffer } := by
  unfold OnAddressInfo InternStringIfNecessaryAndGetKey
  by_cases h1 : a ∈ s.addresses_seen
  · simp [h1]
  · by_cases h2 : ComputeStringKey (demangle fn) ∈ s.string_keys_sent
    · by_cases h3 : ComputeStringKey mn ∈ s.string_keys_sent
      · simp [h1, h2, h3]
      · simp [h1, h2, h3]
    · by_cases h3 : ComputeStringKey mn ∈
          ComputeStringKey (demangle fn) :: s.string_keys_sent
      · simp only [List.mem_cons] at h3
        simp [h1, h2, h3]
      · simp only [List.mem_cons, not_or] at h3
        simp [h1, h2, h3.1, h3.2]

theorem stepHandler_frame (demangle : String → String) (c : HandlerCall)
    (s : HandlerState) (b : List CaptureEvent) :
    stepHandler demangle c { s with event_buffer := b } =
      { stepHandler demangle c { s with event_buffer := [] } with
        event_buffer :=
          b ++ (stepHandler demangle c
              { s with event_buffer := [] }).event_buffer } := by
  cases c with
  | schedulingSlice d => simp [stepHandler, OnSchedulingSlice]
  | callstackSample d pcs =>
      simp only [stepHandler]
      unfold OnCallstackSample InternCallstackIfNecessaryAndGetKey
      by_cases h : ComputeCallstackKey pcs ∈ s.callstack_keys_sent <;>
        simp [h]
  | functionCall d => simp [stepHandler, OnFunctionCall]
  | introspectionScope d => simp [stepHandler, OnIntrospectionScope]
  | gpuJob d timeline =>
      simp only [stepHandler]
      unfold OnGpuJob InternStringIfNecessaryAndGetKey
      by_cases h : ComputeStringKey timeline ∈ s.string_keys_sent <;> simp [h]
  | threadName d => simp [stepHandler, OnThreadName]
  | threadStateSlice d => simp [stepHandler, OnThreadStateSlice]
  | addressInfo a fn mn o =>
      simpa [stepHandler] using OnAddressInfo_frame demangle a fn mn o s b
  | tracepointEvent d cat n =>
      simp only [stepHandler]
      unfold OnTracepointEvent InternTracepointInfoIfNecessaryAndGetKey
      by_cases h : ComputeStringKey (cat ++ ":" ++ n) ∈
          s.tracepoint_keys_sent <;> simp [h]

theorem runHandlers_frame (demangle : String → String) (l : List HandlerCall)
    (s : HandlerState) (b : List CaptureEvent) :
    runHandlers demangle l { s with event_buffer := b } =
      { runHandlers demangle l { s with event_buffer := [] } with
        event_buffer :=
          b ++ (runHandlers demangle l
              { s with event_buffer := [] }).event_buffer } := by
  induction l generalizing s b with
  | nil => simp [runHandlers]
  | cons c rest ih =>
      simp only [runHandlers]
      rw [stepHandler_frame]
      have e1 := ih (stepHandler demangle c { s with event_buffer := [] })
        (b ++ (stepHandler demangle c
          { s with event_buffer := [] }).event_buffer)
      have e2 := ih (stepHandler demangle c { s with event_buffer := [] })
        ((stepHandler demangle c { s with event_buffer := [] }).event_buffer)
      rw [show ({ stepHandler demangle c { s with event_buffer := [] } with
          event_buffer := (stepHandler demangle c
            { s with event_buffer := [] }).event_buffer } : HandlerState) =
          stepHandler demangle c { s with event_buffer := [] } from rfl] at e2
      rw [e1, e2]
      simp

/-- Sequential composition of `runHandlers` over list append. -/
theorem runHandlers_append (demangle : String → String)
    (l1 l2 : List HandlerCall) (s : HandlerState) :
    runHandlers demangle (l1 ++ l2) s =
      runHandlers demangle l2 (runHandlers demangle l1 s) := by
  induction l1 generalizing s with
  | nil => simp [runHandlers]
  | cons c rest ih => simp [runHandlers, ih]

/-- The delivery invariant: at any point of a session interleaving, the
events already delivered followed by the events still in the buffer are
exactly the events a flush-free run of the same callbacks would have
accumulated, and the non-buffer state agrees with that run. -/
theorem runSession_delivered_invariant (demangle : String → String)
    (trace : List Step) (s : HandlerState) (d : List CaptureEvent) :
    (runSession demangle trace ⟨s, d⟩).delivered ++
        (runSession demangle trace ⟨s, d⟩).hs.event_buffer =
      d ++ (runHandlers demangle (callsOf trace) s).event_buffer := by
  induction trace generalizing s d with
  | nil => simp [runSession, runHandlers, callsOf]
  | cons st rest ih =>
      cases st with
      | call c =>
          simp only [runSession, callsOf, runHandlers]
          exact ih (stepHandler demangle c s) d
      | flush =>
          simp only [runSession, callsOf, flushOnce]
          rw [ih { s with event_buffer := [] } (d ++ s.event_buffer)]
          have e := runHandlers_frame demangle (callsOf rest) s s.event_buffer
          rw [show ({ s with event_buffer := s.event_buffer } :
              HandlerState) = s from rfl] at e
          rw [e]
          simp

/-- Lemma: `runSession` composes over trace concatenation. -/
theorem runSession_append (demangle : String → String)
    (t1 t2 : List Step) (ss : SessionState) :
    runSession demangle (t1 ++ t2) ss =
      runSession demangle t2 (runSession demangle t1 ss) := by
  induction t1 generalizing ss with
  | nil => simp [runSession]
  | cons st rest ih => cases st <;> simp [runSession, ih]

theorem callsOf_append (t1 t2 : List Step) :
    callsOf (t1 ++ t2) = callsOf t1 ++ callsOf t2 := by
  induction t1 with
  | nil => simp [callsOf]
  | cons st rest ih => cases st <;> simp [callsOf, ih]

/-- C2: for every session interleaving of producer callbacks and sender
flushes, the concatenation of all delivered batches, in delivery order,
followed by the not-yet-flushed remainder of the buffer, equals the sequence
of events appended to the event buffer in append order (the buffer a
flush-free run accumulates); in particular, after a final flush the
delivered sequence is exactly the append-order sequence: nothing lost,
nothing duplicated, FIFO preserved. -/
theorem delivery_equals_append_order (demangle : String → String)
    (trace : List Step) :
    ((runSession demangle trace ⟨initState, []⟩).delivered ++
        (runSession demangle trace ⟨initState, []⟩).hs.event_buffer =
      (runHandlers demangle (callsOf trace) initState).event_buffer) ∧
    ((runSession demangle (trace ++ [Step.flush])
        ⟨initState, []⟩).delivered =
      (runHandlers demangle (callsOf trace) initState).event_buffer) := by
  constructor
  · simpa using runSession_delivered_invariant demangle trace initState []
  · rw [runSession_append]
    have h := runSession_delivered_invariant demangle trace initState []
    simp only [runSession, flushOnce]
    simpa using h

/-! Dedup invariant: each intern domain emits a key's interned event at
most once. -/

theorem dedupInv_append_plain (s : HandlerState) (e : CaptureEvent)
    (hcs : ∀ k, isInternedCallstackKey k e = false)
    (hstr : ∀ k, isInternedStringKey k e = false)
    (htp : ∀ k, isInternedTracepointKey k e = false)
    (h : dedupInv s) :
    dedupInv { s with event_buffer := s.event_buffer ++ [e] } := by
  obtain ⟨h1, h2, h3⟩ := h
  refine ⟨fun k => ?_, fun k => ?_, fun k => ?_⟩
  · simpa [countInternedCallstackKey, List.countP_append, List.countP_cons,
      hcs k] using h1 k
  · simpa [countInternedStringKey, List.countP_append, List.countP_cons,
      hstr k] using h2 k
  · simpa [countInternedTracepointKey, List.countP_append, List.countP_cons,
      htp k] using h3 k

theorem dedupInv_internCallstack (cs : List Nat) (s : HandlerState)
    (h : dedupInv s) :
    dedupInv (InternCallstackIfNecessaryAndGetKey cs s).2 := by
  obtain ⟨h1, h2, h3⟩ := h
  unfold InternCallstackIfNecessaryAndGetKey
  by_cases hc : ComputeCallstackKey cs ∈ s.callstack_keys_sent
  · simpa [hc] using ⟨h1, h2, h3⟩
  · rw [if_neg (by simpa using hc)]
    refine ⟨fun k => ?_, fun k => ?_, fun k => ?_⟩
    · by_cases hk : k = ComputeCallstackKey cs
      · subst hk
        have h0 := h1 (ComputeCallstackKey cs)
        rw [if_neg hc] at h0
        simp [countInternedCallstackKey, List.countP_append,
          List.countP_cons, isInternedCallstackKey, h0,
          countInternedCallstackKey] at h0 ⊢
        simpa [countInternedCallstackKey] using h0
      · have h0 := h1 k
        simpa [countInternedCallstackKey, List.countP_append,
          List.countP_cons, isInternedCallstackKey, Ne.symm hk, hk]
          using h0
    · simpa [countInternedStringKey, List.countP_append, List.countP_cons,
        isInternedStringKey] using h2 k
    · simpa [countInternedTracepointKey, List.countP_append,
        List.countP_cons, isInternedTracepointKey] using h3 k

theorem dedupInv_internString (str : String) (s : HandlerState)
    (h : dedupInv s) :
    dedupInv (InternStringIfNecessaryAndGetKey str s).2 := by
  obtain ⟨h1, h2, h3⟩ := h
  unfold InternStringIfNecessaryAndGetKey
  by_cases hc : ComputeStringKey str ∈ s.string_keys_sent
  · simpa [hc] using ⟨h1, h2, h3⟩
  · rw [if_neg (by simpa using hc)]
    refine ⟨fun k => ?_, fun k => ?_, fun k => ?_⟩
    · simpa [countInternedCallstackKey, List.countP_append,
        List.countP_cons, isInternedCallstackKey] using h1 k
    · by_cases hk : k = ComputeStringKey str
      · subst hk
        have h0 := h2 (ComputeStringKey str)
        rw [if_neg hc] at h0
        simp [countInternedStringKey, List.countP_append, List.countP_cons,
          isInternedStringKey, h0, countInternedStringKey] at h0 ⊢
        simpa [countInternedStringKey] using h0
      · have h0 := h2 k
        simpa [countInternedStringKey, List.countP_append, List.countP_cons,
          isInternedStringKey, Ne.symm hk, hk] using h0
    · simpa [countInternedTracepointKey, List.countP_append,
        List.countP_cons, isInternedTracepointKey] using h3 k

theorem dedupInv_internTracepoint (category name : String) (s : HandlerState)
    (h : dedupInv s) :
    dedupInv (InternTracepointInfoIfNecessaryAndGetKey category name s).2 := by
  obtain ⟨h1, h2, h3⟩ := h
  unfold InternTracepointInfoIfNecessaryAndGetKey
  by_cases hc : ComputeStringKey (category ++ ":" ++ name) ∈
      s.tracepoint_keys_sent
  · simpa [hc] using ⟨h1, h2, h3⟩
  · rw [if_neg (by simpa using hc)]
    refine ⟨fun k => ?_, fun k => ?_, fun k => ?_⟩
    · simpa [countInternedCallstackKey, List.countP_append,
        List.countP_cons, isInternedCallstackKey] using h1 k
    · simpa [countInternedStringKey, List.countP_append, List.countP_cons,
        isInternedStringKey] using h2 k
    · by_cases hk : k = ComputeStringKey (category ++ ":" ++ name)
      · subst hk
        have h0 := h3 (ComputeStringKey (category ++ ":" ++ name))
        rw [if_neg hc] at h0
        simp [countInternedTracepointKey, List.countP_append,
          List.countP_cons, isInternedTracepointKey, h0,
          countInternedTracepointKey] at h0 ⊢
        simpa [countInternedTracepointKey] using h0
      · have h0 := h3 k
        simpa [countInternedTracepointKey, List.countP_append,
          List.countP_cons, isInternedTracepointKey, Ne.symm hk, hk]
          using h0

/-- The dedup invariant only mentions the buffer and sent sets, so appending
a data-bearing event after an intern preserves it. -/
theorem dedupInv_stepHandler (demangle : String → String) (c : HandlerCall)
    (s : HandlerState) (h : dedupInv s) :
    dedupInv (stepHandler demangle c s) := by
  cases c with
  | schedulingSlice d =>
      exact dedupInv_append_plain s _ (fun k => rfl) (fun k => rfl)
        (fun k => rfl) h
  | callstackSample d pcs =>
      have h1 := dedupInv_internCallstack pcs s h
      exact dedupInv_append_plain _ _ (fun k => rfl) (fun k => rfl)
        (fun k => rfl) h1
  | functionCall d =>
      exact dedupInv_append_plain s _ (fun k => rfl) (fun k => rfl)
        (fun k => rfl) h
  | introspectionScope d =>
      exact dedupInv_append_plain s _ (fun k => rfl) (fun k => rfl)
        (fun k => rfl) h
  | gpuJob d timeline =>
      have h1 := dedupInv_internString timeline s h
      exact dedupInv_append_plain _ _ (fun k => rfl) (fun k => rfl)
        (fun k => rfl) h1
  | threadName d =>
      exact dedupInv_append_plain s _ (fun k => rfl) (fun k => rfl)
        (fun k => rfl) h
  | threadStateSlice d =>
      exact dedupInv_append_plain s _ (fun k => rfl) (fun k => rfl)
        (fun k => rfl) h
  | addressInfo a fn mn o =>
      simp only [stepHandler, OnAddressInfo]
      by_cases ha : a ∈ s.addresses_seen
      · simpa [ha] using h
      · rw [if_neg (by simpa using ha)]
        have h1 := dedupInv_internString (demangle fn)
          { s with addresses_seen := a :: s.addresses_seen } h
        have h2 := dedupInv_internString mn _ h1
        exact dedupInv_append_plain _ _ (fun k => rfl) (fun k => rfl)
          (fun k => rfl) h2
  | tracepointEvent d cat n =>
      have h1 := dedupInv_internTracepoint cat n s h
      exact dedupInv_append_plain _ _ (fun k => rfl) (fun k => rfl)
        (fun k => rfl) h1

theorem dedupInv_runHandlers (demangle : String → String)
    (l : List HandlerCall) (s : HandlerState) (h : dedupInv s) :
    dedupInv (runHandlers demangle l s) := by
  induction l generalizing s with
  | nil => simpa [runHandlers] using h
  | cons c rest ih =>
      exact ih (stepHandler demangle c s) (dedupInv_stepHandler demangle c s h)

theorem dedupInv_initState : dedupInv initState := by
  refine ⟨fun k => ?_, fun k => ?_, fun k => ?_⟩ <;>
    simp [initState, countInternedCallstackKey, countInternedStringKey,
      countInternedTracepointKey]

/-- C1: in every intern domain (string, callstack, tracepoint), across
any sequence of handler calls in one session, at most one interned-payload
event carrying a given key is appended to the event buffer; a call that
finds the key already sent returns the key and changes nothing, and a call
that finds it absent marks it sent and enqueues the interned event. -/
theorem intern_dedup_once (demangle : String → String)
    (calls : List HandlerCall) (k : Nat) :
    (countInternedCallstackKey k
        (runHandlers demangle calls initState).event_buffer ≤ 1 ∧
      countInternedStringKey k
        (runHandlers demangle calls initState).event_buffer ≤ 1 ∧
      countInternedTracepointKey k
        (runHandlers demangle calls initState).event_buffer ≤ 1) ∧
    (∀ cs s, ComputeCallstackKey cs ∈ s.callstack_keys_sent →
      InternCallstackIfNecessaryAndGetKey cs s =
        (ComputeCallstackKey cs, s)) ∧
    (∀ str s, ComputeStringKey str ∈ s.string_keys_sent →
      InternStringIfNecessaryAndGetKey str s = (ComputeStringKey str, s)) ∧
    (∀ cat n s,
      ComputeStringKey (cat ++ ":" ++ n) ∈ s.tracepoint_keys_sent →
      InternTracepointInfoIfNecessaryAndGetKey cat n s =
        (ComputeStringKey (cat ++ ":" ++ n), s)) ∧
    (∀ cs s, ComputeCallstackKey cs ∉ s.callstack_keys_sent →
      InternCallstackIfNecessaryAndGetKey cs s =
        (ComputeCallstackKey cs,
          { s with
            callstack_keys_sent :=
              ComputeCallstackKey cs :: s.callstack_keys_sent
            event_buffer := s.event_buffer ++
              [CaptureEvent.internedCallstack (ComputeCallstackKey cs) cs] })) ∧
    (∀ str s, ComputeStringKey str ∉ s.string_keys_sent →
      InternStringIfNecessaryAndGetKey str s =
        (ComputeStringKey str,
          { s with
            string_keys_sent := ComputeStringKey str :: s.string_keys_sent
            event_buffer := s.event_buffer ++
              [CaptureEvent.internedString (ComputeStringKey str) str] })) ∧
    (∀ cat n s,
      ComputeStringKey (cat ++ ":" ++ n) ∉ s.tracepoint_keys_sent →
      InternTracepointInfoIfNecessaryAndGetKey cat n s =
        (ComputeStringKey (cat ++ ":" ++ n),
          { s with
            tracepoint_keys_sent :=
              ComputeStringKey (cat ++ ":" ++ n) :: s.tracepoint_keys_sent
            event_buffer := s.event_buffer ++
              [CaptureEvent.internedTracepointInfo
                (ComputeStringKey (cat ++ ":" ++ n)) n cat] })) := by
  have hinv := dedupInv_runHandlers demangle calls initState dedupInv_initState
  obtain ⟨h1, h2, h3⟩ := hinv
  refine ⟨⟨?_, ?_, ?_⟩, ?_, ?_, ?_, ?_, ?_, ?_⟩
  · rw [h1 k]
    split <;> omega
  · rw [h2 k]
    split <;> omega
  · rw [h3 k]
    split <;> omega
  · intro cs s hs
    unfold InternCallstackIfNecessaryAndGetKey
    rw [if_pos (by simpa using hs)]
  · intro str s hs
    unfold InternStringIfNecessaryAndGetKey
    rw [if_pos (by simpa using hs)]
  · intro cat n s hs
    unfold InternTracepointInfoIfNecessaryAndGetKey
    rw [if_pos (by simpa using hs)]
  · intro cs s hs
    unfold InternCallstackIfNecessaryAndGetKey
    rw [if_neg (by simpa using hs)]
  · intro str s hs
    unfold InternStringIfNecessaryAndGetKey
    rw [if_neg (by simpa using hs)]
  · intro cat n s hs
    unfold InternTracepointInfoIfNecessaryAndGetKey
    rw [if_neg (by simpa using hs)]

/-- Witness for `intern_dedup_once` at concrete inputs: two samples of the
same callstack, and a duplicate string-intern call on a key already sent. -/
theorem intern_dedup_once_witness :
    countInternedCallstackKey (ComputeCallstackKey [5, 6])
        (runHandlers (fun str => str)
          [HandlerCall.callstackSample 1 [5, 6],
           HandlerCall.callstackSample 2 [5, 6]]
          initState).event_buffer ≤ 1 ∧
    InternStringIfNecessaryAndGetKey "a"
        { initState with string_keys_sent := [ComputeStringKey "a"] } =
      (ComputeStringKey "a",
        { initState with string_keys_sent := [ComputeStringKey "a"] }) :=
  ⟨(intern_dedup_once (fun str => str)
      [HandlerCall.callstackSample 1 [5, 6],
       HandlerCall.callstackSample 2 [5, 6]]
      (ComputeCallstackKey [5, 6])).1.1,
   (intern_dedup_once (fun str => str) [] 0).2.2.1 "a"
      { initState with string_keys_sent := [ComputeStringKey "a"] }
      (by simp)⟩

/-- A fresh callstack sample appends the interned-callstack record, then the
sample carrying its key. -/
theorem OnCallstackSample_fresh (d : Nat) (pcs : List Nat) (s : HandlerState)
    (h : ComputeCallstackKey pcs ∉ s.callstack_keys_sent) :
    (OnCallstackSample d pcs s).event_buffer =
      s.event_buffer ++
        [CaptureEvent.internedCallstack (ComputeCallstackKey pcs) pcs,
         CaptureEvent.callstackSample d (ComputeCallstackKey pcs)] := by
  unfold OnCallstackSample InternCallstackIfNecessaryAndGetKey
  rw [if_neg (by simpa using h)]
  simp

/-- A GPU job with a fresh timeline appends the interned-string record, then
the job carrying its key. -/
theorem OnGpuJob_fresh (d : Nat) (timeline : String) (s : HandlerState)
    (h : ComputeStringKey timeline ∉ s.string_keys_sent) :
    (OnGpuJob d timeline s).event_buffer =
      s.event_buffer ++
        [CaptureEvent.internedString (ComputeStringKey timeline) timeline,
         CaptureEvent.gpuJob d (ComputeStringKey timeline)] := by
  unfold OnGpuJob InternStringIfNecessaryAndGetKey
  rw [if_neg (by simpa using h)]
  simp

/-- A tracepoint event with fresh info appends the interned-tracepoint
record, then the event carrying its key. -/
theorem OnTracepointEvent_fresh (te : Nat) (cat n : String)
    (s : HandlerState)
    (h : ComputeStringKey (cat ++ ":" ++ n) ∉ s.tracepoint_keys_sent) :
    (OnTracepointEvent te cat n s).event_buffer =
      s.event_buffer ++
        [CaptureEvent.internedTracepointInfo
          (ComputeStringKey (cat ++ ":" ++ n)) n cat,
         CaptureEvent.tracepointEvent te
          (ComputeStringKey (cat ++ ":" ++ n))] := by
  unfold OnTracepointEvent InternTracepointInfoIfNecessaryAndGetKey
  rw [if_neg (by simpa using h)]
  simp

/-- Lemma: `OnAddressInfo` on a not-yet-seen address: full characterization of the
appended events (interned records, if emitted, strictly before the
address-info event), the address-set update, and the keys marked sent. -/
theorem OnAddressInfo_fresh (demangle : String → String) (a : Nat)
    (fn mn : String) (o : Nat) (s : HandlerState)
    (ha : a ∉ s.addresses_seen) :
    ((OnAddressInfo demangle a fn mn o s).event_buffer =
      s.event_buffer ++
        ((if ComputeStringKey (demangle fn) ∈ s.string_keys_sent then
            ([] : List CaptureEvent)
          else
            [CaptureEvent.internedString (ComputeStringKey (demangle fn))
              (demangle fn)]) ++
         (if ComputeStringKey mn ∈
              (if ComputeStringKey (demangle fn) ∈ s.string_keys_sent then
                s.string_keys_sent
              else ComputeStringKey (demangle fn) :: s.string_keys_sent)
          then ([] : List CaptureEvent)
          else [CaptureEvent.internedString (ComputeStringKey mn) mn])) ++
        [CaptureEvent.addressInfo a (ComputeStringKey (demangle fn))
          (ComputeStringKey mn) o]) ∧
    (OnAddressInfo demangle a fn mn o s).addresses_seen =
      a :: s.addresses_seen ∧
    ComputeStringKey (demangle fn) ∈
      (OnAddressInfo demangle a fn mn o s).string_keys_sent ∧
    ComputeStringKey mn ∈
      (OnAddressInfo demangle a fn mn o s).string_keys_sent := by
  unfold OnAddressInfo InternStringIfNecessaryAndGetKey
  rw [if_neg (by simpa using ha)]
  by_cases h1 : ComputeStringKey (demangle fn) ∈ s.string_keys_sent
  · by_cases h2 : ComputeStringKey mn ∈ s.string_keys_sent
    · simp [h1, h2]
    · simp [h1, h2]
  · by_cases h2 : ComputeStringKey mn = ComputeStringKey (demangle fn)
    · simp [h1, h2]
    · by_cases h3 : ComputeStringKey mn ∈ s.string_keys_sent
      · simp [h1, h2, h3]
      · simp [h1, h2, h3]

/-- Lemma: `OnAddressInfo` on an already-seen address is the identity. -/
theorem OnAddressInfo_seen (demangle : String → String) (a : Nat)
    (fn mn : String) (o : Nat) (s : HandlerState)
    (h : a ∈ s.addresses_seen) :
    OnAddressInfo demangle a fn mn o s = s := by
  unfold OnAddressInfo
  rw [if_pos (by simpa using h)]

/-- Lemma: `OnAddressInfo` never removes keys from the string "sent" set. -/
theorem OnAddressInfo_sent_mono (demangle : String → String) (a : Nat)
    (fn mn : String) (o : Nat) (s : HandlerState) (k : Nat)
    (h : k ∈ s.string_keys_sent) :
    k ∈ (OnAddressInfo demangle a fn mn o s).string_keys_sent := by
  unfold OnAddressInfo InternStringIfNecessaryAndGetKey
  by_cases ha : a ∈ s.addresses_seen
  · simp [ha, h]
  · by_cases h1 : ComputeStringKey (demangle fn) ∈ s.string_keys_sent
    · by_cases h2 : ComputeStringKey mn ∈ s.string_keys_sent
      · simp [ha, h1, h2, h]
      · simp [ha, h1, h2, h]
    · by_cases h2 : ComputeStringKey mn = ComputeStringKey (demangle fn)
      · simp [ha, h1, h2, h]
      · by_cases h3 : ComputeStringKey mn ∈ s.string_keys_sent
        · simp [ha, h1, h2, h3, h]
        · simp [ha, h1, h2, h3, h]

/-- C3: in a single-threaded handler call, whenever the call emits the
interned-payload event for key `k`, that interned event is appended strictly
before the call's own data-bearing event carrying `k`: the resulting buffer
is the old buffer, then the interned record(s), then the data event last. -/
theorem intern_event_precedes_data_event (demangle : String → String)
    (s : HandlerState) :
    (∀ d pcs, ComputeCallstackKey pcs ∉ s.callstack_keys_sent →
      (OnCallstackSample d pcs s).event_buffer =
        s.event_buffer ++
          [CaptureEvent.internedCallstack (ComputeCallstackKey pcs) pcs,
           CaptureEvent.callstackSample d (ComputeCallstackKey pcs)]) ∧
    (∀ d timeline, ComputeStringKey timeline ∉ s.string_keys_sent →
      (OnGpuJob d timeline s).event_buffer =
        s.event_buffer ++
          [CaptureEvent.internedString (ComputeStringKey timeline) timeline,
           CaptureEvent.gpuJob d (ComputeStringKey timeline)]) ∧
    (∀ te cat n,
      ComputeStringKey (cat ++ ":" ++ n) ∉ s.tracepoint_keys_sent →
      (OnTracepointEvent te cat n s).event_buffer =
        s.event_buffer ++
          [CaptureEvent.internedTracepointInfo
            (ComputeStringKey (cat ++ ":" ++ n)) n cat,
           CaptureEvent.tracepointEvent te
            (ComputeStringKey (cat ++ ":" ++ n))]) ∧
    (∀ a fn mn o, a ∉ s.addresses_seen →
      (OnAddressInfo demangle a fn mn o s).event_buffer =
        s.event_buffer ++
          ((if ComputeStringKey (demangle fn) ∈ s.string_keys_sent then
              ([] : List CaptureEvent)
            else
              [CaptureEvent.internedString (ComputeStringKey (demangle fn))
                (demangle fn)]) ++
           (if ComputeStringKey mn ∈
                (if ComputeStringKey (demangle fn) ∈ s.string_keys_sent then
                  s.string_keys_sent
                else ComputeStringKey (demangle fn) :: s.string_keys_sent)
            then ([] : List CaptureEvent)
            else [CaptureEvent.internedString (ComputeStringKey mn) mn])) ++
          [CaptureEvent.addressInfo a (ComputeStringKey (demangle fn))
            (ComputeStringKey mn) o]) :=
  ⟨fun d pcs h => OnCallstackSample_fresh d pcs s h,
   fun d timeline h => OnGpuJob_fresh d timeline s h,
   fun te cat n h => OnTracepointEvent_fresh te cat n s h,
   fun a fn mn o ha => (OnAddressInfo_fresh demangle a fn mn o s ha).1⟩

/-- Witness for `intern_event_precedes_data_event`: a fresh callstack sample
and a fresh address-info call from the initial state. -/
theorem intern_event_precedes_data_event_witness :
    ((OnCallstackSample 7 [10, 20] initState).event_buffer =
      [CaptureEvent.internedCallstack (ComputeCallstackKey [10, 20]) [10, 20],
       CaptureEvent.callstackSample 7 (ComputeCallstackKey [10, 20])]) ∧
    ((OnAddressInfo (fun str => str) 42 "f" "m" 0 initState).event_buffer =
      [CaptureEvent.internedString (ComputeStringKey "f") "f",
       CaptureEvent.internedString (ComputeStringKey "m") "m",
       CaptureEvent.addressInfo 42 (ComputeStringKey "f")
        (ComputeStringKey "m") 0]) := by
  constructor
  · have h := (intern_event_precedes_data_event (fun str => str)
      initState).1 7 [10, 20] (by simp [initState])
    simpa [initState] using h
  · have h := (intern_event_precedes_data_event (fun str => str)
      initState).2.2.2 42 "f" "m" 0 (by simp [initState])
    have hne : ComputeStringKey "m" ≠ ComputeStringKey "f" := by decide
    simp only [initState, List.not_mem_nil, if_false, List.mem_singleton,
      List.mem_cons] at h
    simpa [initState, hne] using h

/-- C5: the callstack intern key is the polynomial hash with seed 17 and
multiplier 31 in wrapping 64-bit arithmetic; it is deterministic and
order-sensitive (witnessed at [10,20,30] vs [30,20,10]). -/
theorem callstack_key_spec :
    (ComputeCallstackKey [] = 17) ∧
    (∀ pcs pc, ComputeCallstackKey (pcs ++ [pc]) =
      (31 * ComputeCallstackKey pcs + pc) % U64) ∧
    (∀ p q : List Nat, p = q →
      ComputeCallstackKey p = ComputeCallstackKey q) ∧
    ComputeCallstackKey [10, 20, 30] ≠ ComputeCallstackKey [30, 20, 10] := by
  refine ⟨rfl, ?_, ?_, ?_⟩
  · intro pcs pc
    simp [ComputeCallstackKey, List.foldl_append]
  · intro p q h
    rw [h]
  · decide

/-- Witness for `callstack_key_spec`: the recurrence at a concrete stack and
determinism at equal inputs. -/
theorem callstack_key_spec_witness :
    (ComputeCallstackKey ([10, 20] ++ [30]) =
      (31 * ComputeCallstackKey [10, 20] + 30) % U64) ∧
    ComputeCallstackKey [10, 20, 30] = ComputeCallstackKey [10, 20, 30] :=
  ⟨callstack_key_spec.2.1 [10, 20] 30,
   callstack_key_spec.2.2.1 [10, 20, 30] [10, 20, 30] rfl⟩

/-- C6: the tracepoint intern key is the string hash of
`"<category>:<name>"`, and the intern table dedups by key alone: when a
second, possibly different payload hashes to an already-sent key, no second
interned event is emitted and the same key is returned. -/
theorem tracepoint_key_collision (c1 n1 c2 n2 : String) (s : HandlerState)
    (hk : ComputeStringKey (c2 ++ ":" ++ n2) =
      ComputeStringKey (c1 ++ ":" ++ n1))
    (hfresh : ComputeStringKey (c1 ++ ":" ++ n1) ∉ s.tracepoint_keys_sent) :
    (∀ cat n t, (InternTracepointInfoIfNecessaryAndGetKey cat n t).1 =
      ComputeStringKey (cat ++ ":" ++ n)) ∧
    (InternTracepointInfoIfNecessaryAndGetKey c1 n1 s).2.event_buffer =
      s.event_buffer ++
        [CaptureEvent.internedTracepointInfo
          (ComputeStringKey (c1 ++ ":" ++ n1)) n1 c1] ∧
    InternTracepointInfoIfNecessaryAndGetKey c2 n2
        (InternTracepointInfoIfNecessaryAndGetKey c1 n1 s).2 =
      (ComputeStringKey (c1 ++ ":" ++ n1),
        (InternTracepointInfoIfNecessaryAndGetKey c1 n1 s).2) := by
  have hinner : InternTracepointInfoIfNecessaryAndGetKey c1 n1 s =
      (ComputeStringKey (c1 ++ ":" ++ n1),
        { s with
          tracepoint_keys_sent :=
            ComputeStringKey (c1 ++ ":" ++ n1) :: s.tracepoint_keys_sent
          event_buffer := s.event_buffer ++
            [CaptureEvent.internedTracepointInfo
              (ComputeStringKey (c1 ++ ":" ++ n1)) n1 c1] }) := by
    unfold InternTracepointInfoIfNecessaryAndGetKey
    rw [if_neg (by simpa using hfresh)]
  refine ⟨?_, ?_, ?_⟩
  · intro cat n t
    unfold InternTracepointInfoIfNecessaryAndGetKey
    by_cases hc : ComputeStringKey (cat ++ ":" ++ n) ∈ t.tracepoint_keys_sent
    · simp [hc]
    · simp [hc]
  · rw [hinner]
  · rw [hinner]
    unfold InternTracepointInfoIfNecessaryAndGetKey
    rw [if_pos (by simp [hk])]
    simp [hk]

/-- Witness for `tracepoint_key_collision`: the payloads ("a:b","c") and
("a","b:c") both concatenate to "a:b:c", so the second intern call is
treated as a duplicate of the first. -/
theorem tracepoint_key_collision_witness :
    InternTracepointInfoIfNecessaryAndGetKey "a" "b:c"
        (InternTracepointInfoIfNecessaryAndGetKey "a:b" "c" initState).2 =
      (ComputeStringKey ("a:b" ++ ":" ++ "c"),
        (InternTracepointInfoIfNecessaryAndGetKey "a:b" "c" initState).2) :=
  (tracepoint_key_collision "a:b" "c" "a" "b:c" initState (by rfl)
    (by simp [initState])).2.2

/-- C7: the first `OnAddressInfo` call for an absolute address records
the address and enqueues an address-info event; every later call with the
same address leaves the whole handler state unchanged. -/
theorem address_gate (demangle : String → String) (a : Nat)
    (fn mn : String) (o : Nat) (s : HandlerState) :
    (a ∈ s.addresses_seen → OnAddressInfo demangle a fn mn o s = s) ∧
    (a ∉ s.addresses_seen →
      (OnAddressInfo demangle a fn mn o s).addresses_seen =
        a :: s.addresses_seen ∧
      ∃ pre, (OnAddressInfo demangle a fn mn o s).event_buffer =
        s.event_buffer ++ pre ++
          [CaptureEvent.addressInfo a (ComputeStringKey (demangle fn))
            (ComputeStringKey mn) o]) :=
  ⟨fun h => OnAddressInfo_seen demangle a fn mn o s h,
   fun h =>
    ⟨(OnAddressInfo_fresh demangle a fn mn o s h).2.1,
     ⟨_, (OnAddressInfo_fresh demangle a fn mn o s h).1⟩⟩⟩

/-- Witness for `address_gate`: a repeated address is a no-op; a fresh
address is recorded. -/
theorem address_gate_witness :
    (OnAddressInfo (fun str => str) 5 "f" "m" 0
        { initState with addresses_seen := [5] } =
      { initState with addresses_seen := [5] }) ∧
    (OnAddressInfo (fun str => str) 5 "f" "m" 0 initState).addresses_seen =
      [5] := by
  constructor
  · exact (address_gate (fun str => str) 5 "f" "m" 0
      { initState with addresses_seen := [5] }).1 (by simp)
  · have h := ((address_gate (fun str => str) 5 "f" "m" 0 initState).2
      (by simp [initState])).1
    simpa [initState] using h

/-- C8: the sender thread's wake condition is exactly "buffer length at
least 5000, or tracer null (session stopped)", the timeout constant is
20 ms, a burst of at least 5000 buffered events makes the condition true
immediately, and each wake-up flushes the entire buffer as one batch. -/
theorem sender_wake_condition_spec :
    (∀ s : HandlerState, senderWakeCondition s = true ↔
      (5000 ≤ s.event_buffer.length ∨ s.tracer = none)) ∧
    kSendEventCountInterval = 5000 ∧
    kSendTimeIntervalMs = 20 ∧
    (∀ ss : SessionState,
      (flushOnce ss).hs.event_buffer = [] ∧
      (flushOnce ss).delivered = ss.delivered ++ ss.hs.event_buffer ∧
      (flushOnce ss).hs.tracer = ss.hs.tracer) ∧
    (∀ s : HandlerState, 5000 ≤ s.event_buffer.length →
      senderWakeCondition s = true) := by
  refine ⟨?_, rfl, rfl, ?_, ?_⟩
  · intro s
    simp [senderWakeCondition, kSendEventCountInterval,
      Option.isNone_iff_eq_none]
  · intro ss
    exact ⟨rfl, rfl, rfl⟩
  · intro s h
    simp [senderWakeCondition, kSendEventCountInterval, h]

/-- Witness for `sender_wake_condition_spec`: a 5000-event burst wakes the
sender even with a live tracer. -/
theorem sender_wake_condition_spec_witness :
    senderWakeCondition
      { initState with
        event_buffer :=
          List.replicate 5000 (CaptureEvent.schedulingSlice 0) } = true :=
  sender_wake_condition_spec.2.2.2.2 _
    (by rw [List.length_replicate])

/-! Side-channel drain. -/

theorem readLittleEndian32_encode (n : Nat) (rest : List Nat)
    (h : n < 2 ^ 32) :
    readLittleEndian32 (toLittleEndian32 n ++ rest) = some (n, rest) := by
  simp only [toLittleEndian32, List.cons_append, List.nil_append,
    readLittleEndian32, Option.some.injEq, Prod.mk.injEq]
  exact ⟨by omega, trivial⟩

theorem ReadMessage_encode (p rest : List Nat) (h : p.length < 2 ^ 32) :
    ReadMessage (encodeRecord p ++ rest) = some (p, rest) := by
  unfold ReadMessage encodeRecord
  rw [List.append_assoc, readLittleEndian32_encode p.length (p ++ rest) h]
  show (if p.length ≤ (p ++ rest).length then
      some ((p ++ rest).take p.length, (p ++ rest).drop p.length)
    else none) = some (p, rest)
  rw [if_pos (by simp)]
  rw [List.take_left, List.drop_left]

theorem drainLoop_of_none {input : List Nat}
    (h : ReadMessage input = none) : drainLoop input = [] := by
  rw [drainLoop]
  split
  · rfl
  · rename_i payload rest heq
    rw [h] at heq
    cases heq

theorem drainLoop_of_some {input payload rest : List Nat}
    (h : ReadMessage input = some (payload, rest)) :
    drainLoop input =
      CaptureEvent.gpuQueueSubmission payload :: drainLoop rest := by
  rw [drainLoop]
  split
  · rename_i heq
    rw [h] at heq
    cases heq
  · rename_i payload2 rest2 heq
    rw [h] at heq
    rw [Option.some.injEq, Prod.mk.injEq] at heq
    rw [heq.1, heq.2]

theorem drainLoop_encodeFile (payloads : List (List Nat))
    (h : ∀ p ∈ payloads, p.length < 2 ^ 32) (tail : List Nat)
    (ht : ReadMessage tail = none) :
    drainLoop (encodeFile payloads ++ tail) =
      payloads.map CaptureEvent.gpuQueueSubmission := by
  induction payloads with
  | nil => simpa [encodeFile] using drainLoop_of_none ht
  | cons p ps ih =>
      have hp : p.length < 2 ^ 32 := h p (by simp)
      rw [show encodeFile (p :: ps) ++ tail =
          encodeRecord p ++ (encodeFile ps ++ tail) by
        simp [encodeFile, List.append_assoc]]
      rw [drainLoop_of_some (ReadMessage_encode p (encodeFile ps ++ tail) hp)]
      rw [ih (fun q hq => h q (by simp [hq]))]
      simp

/-- C4: draining a well-formed side-channel file appends one
GPU-queue-submission event per record, in file order; a truncated final
record (short length prefix, or length exceeding the remaining bytes) stops
the drain, keeping every fully read record; the file is gone afterward; a
missing file drains to nothing. -/
theorem drain_correctness (payloads : List (List Nat))
    (h : ∀ p ∈ payloads, p.length < 2 ^ 32) :
    (drainSideChannel (some (encodeFile payloads)) =
      (payloads.map CaptureEvent.gpuQueueSubmission, none)) ∧
    (∀ tail, ReadMessage tail = none →
      drainSideChannel (some (encodeFile payloads ++ tail)) =
        (payloads.map CaptureEvent.gpuQueueSubmission, none)) ∧
    (∀ tail : List Nat, tail.length < 4 → ReadMessage tail = none) ∧
    (∀ tail msgSize r, readLittleEndian32 tail = some (msgSize, r) →
      r.length < msgSize → ReadMessage tail = none) ∧
    drainSideChannel none = ([], none) := by
  refine ⟨?_, ?_, ?_, ?_, rfl⟩
  · have he : encodeFile payloads = encodeFile payloads ++ [] := by simp
    rw [drainSideChannel, he, drainLoop_encodeFile payloads h [] rfl]
  · intro tail ht
    rw [drainSideChannel, drainLoop_encodeFile payloads h tail ht]
  · intro tail hlen
    match tail with
    | [] => rfl
    | [_] => rfl
    | [_, _] => rfl
    | [_, _, _] => rfl
    | _ :: _ :: _ :: _ :: _ => exact absurd hlen (by simp)
  · intro tail msgSize r hr hshort
    unfold ReadMessage
    rw [hr]
    exact if_neg (by omega)

/-- Witness for `drain_correctness`: the spec's example records "abc" and
"wxyz", the truncated tail whose length prefix says 10 with only 4 bytes
following, and the missing file. -/
theorem drain_correctness_witness :
    (drainSideChannel (some (encodeFile
        [[97, 98, 99], [119, 120, 121, 122]])) =
      ([CaptureEvent.gpuQueueSubmission [97, 98, 99],
        CaptureEvent.gpuQueueSubmission [119, 120, 121, 122]], none)) ∧
    (drainSideChannel (some (encodeFile
        [[97, 98, 99], [119, 120, 121, 122]] ++
          (toLittleEndian32 10 ++ [1, 2, 3, 4]))) =
      ([CaptureEvent.gpuQueueSubmission [97, 98, 99],
        CaptureEvent.gpuQueueSubmission [119, 120, 121, 122]], none)) := by
  have h := drain_correctness [[97, 98, 99], [119, 120, 121, 122]]
    (by decide)
  refine ⟨h.1, ?_⟩
  have ht : ReadMessage (toLittleEndian32 10 ++ [1, 2, 3, 4]) = none :=
    h.2.2.2.1 (toLittleEndian32 10 ++ [1, 2, 3, 4]) 10 [1, 2, 3, 4]
      (by decide) (by decide)
  exact h.2.1 (toLittleEndian32 10 ++ [1, 2, 3, 4]) ht

/-- C9: a record whose length and payload bytes are read successfully is
wrapped as a GPU-queue-submission event and appended no matter whether its
payload decodes as the expected record type — the decode outcome is ignored
and the drain continues with the next record. -/
theorem drain_ignores_decode_failure (decodeOk : List Nat → Bool)
    (before after : List (List Nat)) (bad : List Nat)
    (hlen : ∀ p ∈ before ++ [bad] ++ after, p.length < 2 ^ 32)
    (hbad : decodeOk bad = false) :
    drainLoop (encodeFile (before ++ [bad] ++ after)) =
      before.map CaptureEvent.gpuQueueSubmission ++
        [CaptureEvent.gpuQueueSubmission bad] ++
        after.map CaptureEvent.gpuQueueSubmission := by
  have h := drainLoop_encodeFile (before ++ [bad] ++ after) hlen [] rfl
  simpa using h

/-- Witness for `drain_ignores_decode_failure`: a middle record rejected by
the decode predicate is still wrapped and the next record still drained. -/
theorem drain_ignores_decode_failure_witness :
    drainLoop (encodeFile [[97], [255, 254], [1, 2]]) =
      [CaptureEvent.gpuQueueSubmission [97],
       CaptureEvent.gpuQueueSubmission [255, 254],
       CaptureEvent.gpuQueueSubmission [1, 2]] := by
  have h := drain_ignores_decode_failure (fun bytes => false) [[97]] [[1, 2]]
    [255, 254] (by decide) rfl
  simpa using h

/-- C10: the address-info event carries the string-intern key of the
demangled function name (not of the raw symbol) and of the map name; two
first-seen addresses whose raw names demangle to the same string produce the
same function-name key and share a single interned-string record. -/
theorem address_info_interns_demangled_name (demangle : String → String)
    (a1 a2 : Nat) (fn1 fn2 mn1 mn2 : String) (o1 o2 : Nat)
    (ha : a1 ≠ a2) (hd : demangle fn1 = demangle fn2) :
    (∀ a fn mn o s, a ∉ s.addresses_seen →
      ∃ pre, (OnAddressInfo demangle a fn mn o s).event_buffer =
        s.event_buffer ++ pre ++
          [CaptureEvent.addressInfo a (ComputeStringKey (demangle fn))
            (ComputeStringKey mn) o]) ∧
    ComputeStringKey (demangle fn2) = ComputeStringKey (demangle fn1) ∧
    (∃ pre2, (OnAddressInfo demangle a2 fn2 mn2 o2
        (OnAddressInfo demangle a1 fn1 mn1 o1 initState)).event_buffer =
      (OnAddressInfo demangle a1 fn1 mn1 o1 initState).event_buffer ++
        pre2 ++
        [CaptureEvent.addressInfo a2 (ComputeStringKey (demangle fn2))
          (ComputeStringKey mn2) o2]) ∧
    countInternedStringKey (ComputeStringKey (demangle fn1))
      (OnAddressInfo demangle a2 fn2 mn2 o2
        (OnAddressInfo demangle a1 fn1 mn1 o1
          initState)).event_buffer = 1 := by
  have hfresh1 := OnAddressInfo_fresh demangle a1 fn1 mn1 o1 initState
    (by simp [initState])
  have hseen : (OnAddressInfo demangle a1 fn1 mn1 o1
      initState).addresses_seen = [a1] := by
    simpa [initState] using hfresh1.2.1
  have ha2 : a2 ∉ (OnAddressInfo demangle a1 fn1 mn1 o1
      initState).addresses_seen := by
    rw [hseen]
    intro hmem
    rw [List.mem_singleton] at hmem
    exact ha hmem.symm
  refine ⟨?_, by rw [hd], ?_, ?_⟩
  · intro a fn mn o t ht
    exact ⟨_, (OnAddressInfo_fresh demangle a fn mn o t ht).1⟩
  · exact ⟨_, (OnAddressInfo_fresh demangle a2 fn2 mn2 o2 _ ha2).1⟩
  · have hinv : dedupInv (OnAddressInfo demangle a2 fn2 mn2 o2
        (OnAddressInfo demangle a1 fn1 mn1 o1 initState)) := by
      have h := dedupInv_runHandlers demangle
        [HandlerCall.addressInfo a1 fn1 mn1 o1,
         HandlerCall.addressInfo a2 fn2 mn2 o2] initState dedupInv_initState
      simpa [runHandlers, stepHandler] using h
    have hmem2 : ComputeStringKey (demangle fn1) ∈
        (OnAddressInfo demangle a2 fn2 mn2 o2
          (OnAddressInfo demangle a1 fn1 mn1 o1
            initState)).string_keys_sent :=
      OnAddressInfo_sent_mono demangle a2 fn2 mn2 o2 _ _ hfresh1.2.2.1
    rw [hinv.2.1 (ComputeStringKey (demangle fn1))]
    rw [if_pos hmem2]

/-- Witness for `address_info_interns_demangled_name`: two distinct
addresses whose distinct raw names demangle identically yield exactly one
interned-string record for the shared demangled name. -/
theorem address_info_interns_demangled_name_witness :
    countInternedStringKey (ComputeStringKey "f()")
      (OnAddressInfo (fun str => "f()") 2 "_Zb" "m2" 0
        (OnAddressInfo (fun str => "f()") 1 "_Za" "m1" 0
          initState)).event_buffer = 1 :=
  (address_info_interns_demangled_name (fun str => "f()") 1 2 "_Za" "_Zb"
    "m1" "m2" 0 0 (by decide) rfl).2.2.2

end OrbitService
